import Mathlib

/-!
# Verification of `snake_case` (Rust crate) against its specification

Shallow embedding of `src/lib.rs`. Rust `&str` / `String` values are modelled
as their UTF-8 byte sequences (`List Nat`, each entry a byte value); `strBytes`
converts a Lean `String` literal to that representation with a standard UTF-8
encoder, mirroring Rust's `str::as_bytes`. `Result<T, E>` is modelled as
`Except E T`.
-/

/-- Embeds the nested `const fn valid_start(b: u8) -> bool` of `is_snake_case`:
`b == b'_' || b'a' <= b && b <= b'z'` (`b'_'` = 95, `b'a'` = 97, `b'z'` = 122). -/
def valid_start (b : Nat) : Bool :=
  b == 95 || (97 ≤ b && b ≤ 122)

/-- Embeds the nested `const fn is_snake_case_character(c: u8) -> bool`:
`b'a' <= c && c <= b'z' || b'0' <= c && c <= b'9' || c == b'_'`
(`b'0'` = 48, `b'9'` = 57). -/
def is_snake_case_character (c : Nat) : Bool :=
  (97 ≤ c && c ≤ 122) || (48 ≤ c && c ≤ 57) || c == 95

/-- Embeds the `loop` in `is_snake_case`. The Rust loop keeps a mutable index
`i` and runs `if i >= len - 1 { break true } if !is_snake_case_character(bytes[i])
{ break false } i += 1`. Here `n` is the number of iterations still possible
before the first break fires, i.e. `n = (len - 1) - i` in saturating `Nat`
subtraction, so `n = 0` exactly when `i >= len - 1`. -/
def scanRest (bytes : List Nat) : Nat → Nat → Bool
  | _, 0 => true
  | i, n + 1 =>
    if is_snake_case_character (bytes.getD i 0) then scanRest bytes (i + 1) n
    else false

/-- Embeds `pub const fn is_snake_case(string: &str) -> bool` of `src/lib.rs`
(operating on the string's UTF-8 bytes, exactly as the Rust code does via
`string.as_bytes()`). The loop starts at `i = 1`, so the iteration budget is
`(len - 1) - 1 = len - 2`. -/
def is_snake_case (bytes : List Nat) : Bool :=
  if bytes.isEmpty || !valid_start (bytes.getD 0 0) then false
  else scanRest bytes 1 (bytes.length - 1 - 1)

/-- Instrumented version of the scan loop: every index access `bytes[i]` goes
through `bytes[i]?` and an out-of-bounds access yields `none` (a Rust panic).
Used to show the code never indexes out of bounds. -/
def scanRestChecked (bytes : List Nat) : Nat → Nat → Option Bool
  | _, 0 => some true
  | i, n + 1 =>
    match bytes[i]? with
    | none => none
    | some b =>
      if is_snake_case_character b then scanRestChecked bytes (i + 1) n
      else some false

/-- Instrumented version of `is_snake_case`: index accesses are checked, and the
`usize` subtraction `len - 1` (which would panic on underflow in a debug build)
is guarded by `len = 0`. `none` models a panic. -/
def is_snake_case_checked (bytes : List Nat) : Option Bool :=
  if bytes.isEmpty then some false
  else
    match bytes[0]? with
    | none => none
    | some b0 =>
      if !valid_start b0 then some false
      else if bytes.length = 0 then none
      else scanRestChecked bytes 1 (bytes.length - 1 - 1)

/-- Standard UTF-8 encoding of a single Unicode scalar value, as used by Rust's
`str` representation. For each multi-byte branch the additions coincide with the
usual bitwise-or of the tag bits, because the shifted payloads are below the tag. -/
def utf8EncodeChar (c : Char) : List Nat :=
  if c.toNat < 128 then [c.toNat]
  else if c.toNat < 2048 then
    [192 + c.toNat / 64, 128 + c.toNat % 64]
  else if c.toNat < 65536 then
    [224 + c.toNat / 4096, 128 + c.toNat / 64 % 64, 128 + c.toNat % 64]
  else
    [240 + c.toNat / 262144, 128 + c.toNat / 4096 % 64, 128 + c.toNat / 64 % 64,
      128 + c.toNat % 64]

/-- UTF-8 byte sequence of a list of characters. -/
def utf8Bytes (cs : List Char) : List Nat :=
  cs.flatMap utf8EncodeChar

/-- UTF-8 byte sequence of a Lean string, modelling Rust's `str::as_bytes`. -/
def strBytes (s : String) : List Nat :=
  utf8Bytes s.data

/-- Modelled from the spec (section 3, "ValidatedText (grammar)", and 4.1):
text is valid iff it is non-empty, its first character is `_` or `a`-`z`, and
every character (including the first) is `_`, `a`-`z` or `0`-`9`. This is the
spec-side predicate `is_valid`, to be compared with the code's `is_snake_case`. -/
def spec_is_valid (bytes : List Nat) : Bool :=
  !bytes.isEmpty && valid_start (bytes.getD 0 0) && bytes.all is_snake_case_character

/-- Embeds `pub struct InvalidSnakeCase` — the single, payload-free error. -/
inductive InvalidSnakeCase : Type
  | mk : InvalidSnakeCase
deriving DecidableEq, Repr

/-- Embeds `pub struct SnakeCase(String)` — the owning validated string. -/
structure SnakeCase : Type where
  val : List Nat
deriving DecidableEq, Repr

/-- Embeds `pub struct SnakeCaseRef<'a>(&'a str)` — the borrowing validated
string (the lifetime is erased; the referenced bytes are the field). -/
structure SnakeCaseRef : Type where
  val : List Nat
deriving DecidableEq, Repr

/-- Embeds `SnakeCase::try_from_str`: validate, then store a copy of the text
(`s.to_string()` copies; a copy of a byte sequence is the same byte sequence). -/
def SnakeCase.try_from_str (s : List Nat) : Except InvalidSnakeCase SnakeCase :=
  if is_snake_case s then .ok ⟨s⟩ else .error .mk

/-- Embeds `SnakeCase::try_from_string`: validate, then take ownership of the
buffer without copying. -/
def SnakeCase.try_from_string (s : List Nat) : Except InvalidSnakeCase SnakeCase :=
  if is_snake_case s then .ok ⟨s⟩ else .error .mk

/-- Embeds `SnakeCase::as_str`: a view of the stored text. -/
def SnakeCase.as_str (v : SnakeCase) : List Nat :=
  v.val

/-- Embeds `SnakeCase::as_ref`: `SnakeCaseRef(&self.0)`. -/
def SnakeCase.as_ref (v : SnakeCase) : SnakeCaseRef :=
  ⟨v.val⟩

/-- Embeds `SnakeCaseRef::try_from_str`: validate, then store the reference. -/
def SnakeCaseRef.try_from_str (s : List Nat) : Except InvalidSnakeCase SnakeCaseRef :=
  if is_snake_case s then .ok ⟨s⟩ else .error .mk

/-- Embeds `SnakeCaseRef::as_str`: the referenced text. -/
def SnakeCaseRef.as_str (r : SnakeCaseRef) : List Nat :=
  r.val

/-- Embeds `SnakeCaseRef::to_owned`: `SnakeCase(self.0.to_string())`. -/
def SnakeCaseRef.to_owned (r : SnakeCaseRef) : SnakeCase :=
  ⟨r.val⟩

/-- Embeds the derived `PartialEq` of `SnakeCase`: field-wise, i.e. equality of
the inner `String`. -/
def SnakeCase.eq (a b : SnakeCase) : Bool :=
  a.val == b.val

/-- Embeds `impl PartialEq<str> for SnakeCase` (and the `&str` / `String`
right-hand-side variants, which all compare `self.as_str()` with the text). -/
def SnakeCase.eq_str (a : SnakeCase) (other : List Nat) : Bool :=
  a.as_str == other

/-- Embeds `impl PartialEq<SnakeCase> for &str`: `*self == other.as_str()`. -/
def str_eq_snake_case (s : List Nat) (other : SnakeCase) : Bool :=
  s == other.as_str

/-- Embeds the derived `PartialEq` of `SnakeCaseRef`: equality of the referenced
text. -/
def SnakeCaseRef.eq (a b : SnakeCaseRef) : Bool :=
  a.val == b.val

/-- Embeds `impl PartialEq<str> for SnakeCaseRef` (and `&str` / `String`
variants): `self.as_str() == other`. -/
def SnakeCaseRef.eq_str (a : SnakeCaseRef) (other : List Nat) : Bool :=
  a.as_str == other

/-- Embeds `impl PartialEq<SnakeCaseRef<'_>> for str` (and `&str`):
`self == other.0`. -/
def str_eq_snake_case_ref (s : List Nat) (other : SnakeCaseRef) : Bool :=
  s == other.val

/-- Embeds the derived `Hash` of `SnakeCase`: it delegates to the inner
`String`'s hash, so for any hasher `h` on text the value hashes to `h`
applied to the content. -/
def SnakeCase.hash (h : List Nat → Nat) (v : SnakeCase) : Nat :=
  h v.val

/-- Embeds the derived `Hash` of `SnakeCaseRef`: delegates to the referenced
`str`'s hash. -/
def SnakeCaseRef.hash (h : List Nat → Nat) (r : SnakeCaseRef) : Nat :=
  h r.val

/-- Embeds `impl Deserialize for SnakeCase` after the inner
`String::deserialize` has produced the plain string `s`: re-validate with
`SnakeCase::try_from_str` and on failure build the custom message
`format!("Expected snake_case, got '{}'", string)`. The error side carries the
message's bytes. -/
def SnakeCase.deserialize (s : List Nat) : Except (List Nat) SnakeCase :=
  match SnakeCase.try_from_str s with
  | .ok v => .ok v
  | .error _ => .error (strBytes "Expected snake_case, got '" ++ s ++ strBytes "'")

/-- The scan loop accepts iff every byte at an index in `[i, i + n)` is a
snake_case character; in particular it never looks at any index `≥ i + n`. -/
theorem scanRest_eq_true_iff (bytes : List Nat) (i n : Nat) :
    scanRest bytes i n = true ↔
      ∀ j, i ≤ j → j < i + n → is_snake_case_character (bytes.getD j 0) = true := by
  induction n generalizing i with
  | zero =>
    constructor
    · intro _ j h1 h2
      exact absurd h2 (by omega)
    · intro _
      rfl
  | succ n ih =>
    rw [scanRest]
    by_cases hc : is_snake_case_character (bytes.getD i 0) = true
    · rw [if_pos hc, ih]
      constructor
      · intro h j h1 h2
        rcases Nat.eq_or_lt_of_le h1 with rfl | h1'
        · exact hc
        · exact h j h1' (by omega)
      · intro h j h1 h2
        exact h j (by omega) (by omega)
    · rw [if_neg hc]
      constructor
      · intro h
        exact absurd h (by simp)
      · intro h
        exact absurd (h i (Nat.le_refl i) (by omega)) hc

/-- Index-wise characterization of `is_snake_case`: the bytes actually checked
are index `0` (via `valid_start`) and indices `1` to `length - 2` (via the
loop); index `length - 1` is never inspected. -/
theorem is_snake_case_eq_true_iff (bytes : List Nat) :
    is_snake_case bytes = true ↔
      bytes ≠ [] ∧ valid_start (bytes.getD 0 0) = true ∧
        ∀ j, 1 ≤ j → j < bytes.length - 1 →
          is_snake_case_character (bytes.getD j 0) = true := by
  cases bytes with
  | nil => simp [is_snake_case]
  | cons b t =>
    by_cases hv : valid_start b = true
    · have hred : is_snake_case (b :: t) = scanRest (b :: t) 1 ((b :: t).length - 1 - 1) := by
        simp [is_snake_case, hv]
      rw [hred, scanRest_eq_true_iff]
      constructor
      · intro h
        refine ⟨by simp, by simpa using hv, ?_⟩
        intro j h1 h2
        have h2' : j < t.length := by simpa using h2
        exact h j h1 (by simp only [List.length_cons]; omega)
      · rintro ⟨-, -, h⟩ j h1 h2
        have h2' : j < 1 + (t.length - 1) := by simpa using h2
        exact h j h1 (by simp only [List.length_cons]; omega)
    · have hv' : valid_start b = false := by
        cases h : valid_start b
        · rfl
        · exact absurd h hv
      simp [is_snake_case, hv']

/-- The checked scan agrees with the unchecked scan whenever the iteration
budget keeps every inspected index in bounds. -/
theorem scanRestChecked_eq (bytes : List Nat) (i n : Nat) (h : i + n ≤ bytes.length) :
    scanRestChecked bytes i n = some (scanRest bytes i n) := by
  induction n generalizing i with
  | zero => rfl
  | succ n ih =>
    have hi : i < bytes.length := by omega
    rw [scanRestChecked, scanRest, List.getElem?_eq_getElem hi,
      List.getD_eq_getElem bytes 0 hi]
    by_cases hc : is_snake_case_character bytes[i] = true
    · rw [if_pos hc]
      simpa [hc] using ih (i + 1) (by omega)
    · have hc' : is_snake_case_character bytes[i] = false := by
        cases h : is_snake_case_character bytes[i]
        · rfl
        · exact absurd h hc
      simp [hc']

/-- Every index access in `is_snake_case` is in bounds and the guarded `usize`
subtraction cannot underflow: the checked run never produces `none` (a panic)
and returns exactly the unchecked result. -/
theorem is_snake_case_checked_eq (bytes : List Nat) :
    is_snake_case_checked bytes = some (is_snake_case bytes) := by
  cases bytes with
  | nil => rfl
  | cons b t =>
    by_cases hv : valid_start b = true
    · simp only [is_snake_case_checked, is_snake_case, List.isEmpty_cons, List.getD_cons_zero,
        List.getElem?_cons_zero, hv, Bool.not_true, Bool.or_self, Bool.false_or,
        if_neg Bool.false_ne_true, List.length_cons, Nat.succ_ne_zero, if_false]
      exact scanRestChecked_eq (b :: t) 1 (t.length + 1 - 1 - 1) (by simp; omega)
    · have hv' : valid_start b = false := by
        cases h : valid_start b
        · rfl
        · exact absurd h hv
      simp [is_snake_case_checked, is_snake_case, hv']

/-- A byte `≥ 128` is not a valid start byte. -/
theorem valid_start_eq_false_of_ge (b : Nat) (h : 128 ≤ b) : valid_start b = false := by
  simp only [valid_start, Bool.or_eq_false_iff, Bool.and_eq_false_iff,
    beq_eq_false_iff_ne, ne_eq, decide_eq_false_iff_not, not_le]
  omega

/-- A byte `≥ 128` is not a snake_case character. -/
theorem is_snake_case_character_eq_false_of_ge (c : Nat) (h : 128 ≤ c) :
    is_snake_case_character c = false := by
  simp only [is_snake_case_character, Bool.or_eq_false_iff, Bool.and_eq_false_iff,
    beq_eq_false_iff_ne, ne_eq, decide_eq_false_iff_not, not_le]
  omega

/-- The UTF-8 encoding of a non-ASCII character is at least two bytes long and
its first byte is `≥ 128`. -/
theorem utf8EncodeChar_big (c : Char) (h : 128 ≤ c.toNat) :
    ∃ b rest, utf8EncodeChar c = b :: rest ∧ 128 ≤ b ∧ 1 ≤ rest.length := by
  rw [utf8EncodeChar, if_neg (by omega)]
  by_cases h2 : c.toNat < 2048
  · rw [if_pos h2]
    exact ⟨_, _, rfl, by omega, by simp⟩
  · rw [if_neg h2]
    by_cases h3 : c.toNat < 65536
    · rw [if_pos h3]
      exact ⟨_, _, rfl, by omega, by simp⟩
    · rw [if_neg h3]
      exact ⟨_, _, rfl, by omega, by simp⟩

/-- `getD` at the junction of an append picks the head of the right part. -/
theorem getD_append_cons (A : List Nat) (b : Nat) (B : List Nat) :
    (A ++ b :: B).getD A.length 0 = b := by
  induction A with
  | nil => rfl
  | cons a A ih => simpa [List.getD_cons_succ] using ih

/-- A byte `≥ 128` at any inspected index (anything below `length - 1`) makes
`is_snake_case` return `false`. -/
theorem is_snake_case_eq_false_of_big_byte (bytes : List Nat) (p : Nat)
    (hp : p < bytes.length - 1) (hb : 128 ≤ bytes.getD p 0) :
    is_snake_case bytes = false := by
  rcases Nat.eq_zero_or_pos p with rfl | hpos
  · cases bytes with
    | nil => rfl
    | cons b t =>
      have hv : valid_start b = false :=
        valid_start_eq_false_of_ge b (by simpa using hb)
      simp [is_snake_case, hv]
  · cases h : is_snake_case bytes with
    | false => rfl
    | true =>
      obtain ⟨-, -, hall⟩ := (is_snake_case_eq_true_iff bytes).1 h
      have hc := hall p hpos hp
      rw [is_snake_case_character_eq_false_of_ge _ hb] at hc
      exact hc.symm

/-- A string containing any non-ASCII character is rejected by
`is_snake_case`: all bytes of the character's multi-byte encoding are `≥ 128`
and its first byte always sits at an index the scan inspects. -/
theorem is_snake_case_eq_false_of_nonascii (s : String) (c : Char) (hc : c ∈ s.data)
    (hbig : 128 ≤ c.toNat) : is_snake_case (strBytes s) = false := by
  obtain ⟨l1, l2, hsplit⟩ := List.append_of_mem hc
  obtain ⟨b, rest, henc, hb, hrest⟩ := utf8EncodeChar_big c hbig
  have hbytes : strBytes s = utf8Bytes l1 ++ (b :: (rest ++ utf8Bytes l2)) := by
    rw [strBytes, hsplit]
    simp only [utf8Bytes, List.flatMap_append, List.flatMap_cons, henc]
    simp [List.append_assoc]
  rw [hbytes]
  apply is_snake_case_eq_false_of_big_byte _ (utf8Bytes l1).length
  · simp only [List.length_append, List.length_cons]
    omega
  · rw [getD_append_cons]
    exact hb

/-- Spec-valid text is accepted by the code's validator (the code checks a
subset of the positions the grammar constrains). -/
theorem is_snake_case_of_spec_is_valid (bytes : List Nat) (h : spec_is_valid bytes = true) :
    is_snake_case bytes = true := by
  rw [spec_is_valid] at h
  simp only [Bool.and_eq_true, Bool.not_eq_true'] at h
  obtain ⟨⟨hne, hv⟩, hall⟩ := h
  rw [is_snake_case_eq_true_iff]
  refine ⟨?_, hv, ?_⟩
  · intro hnil
    rw [hnil] at hne
    simp at hne
  · intro j h1 h2
    have hj : j < bytes.length := by omega
    rw [List.getD_eq_getElem bytes 0 hj]
    exact List.all_eq_true.1 hall _ (List.getElem_mem hj)

/-! ## Claim theorems -/

/-- C1: the claim states that `is_snake_case(text)` is true iff text is
non-empty, starts with `_` or `a`-`z`, and every character (including the
first) is `_`, `a`-`z` or `0`-`9`. The code diverges: for `"aB"` the grammar
rejects (uppercase `B`) but `is_snake_case` returns `true`, because the scan
loop breaks at `i >= len - 1` and never inspects the final byte. -/
theorem is_snake_case_accepts_grammar_violation :
    is_snake_case (strBytes "aB") = true ∧ spec_is_valid (strBytes "aB") = false := by
  decide

/-- C2: the claim states every successful public constructor yields content
satisfying the grammar. The code diverges: `try_from_str("aB")` succeeds (via
the C1 validator bug) with content violating the grammar. -/
theorem constructors_accept_grammar_violation :
    SnakeCase.try_from_str (strBytes "aB") = .ok ⟨strBytes "aB"⟩ ∧
    SnakeCase.try_from_string (strBytes "aB") = .ok ⟨strBytes "aB"⟩ ∧
    SnakeCaseRef.try_from_str (strBytes "aB") = .ok ⟨strBytes "aB"⟩ ∧
    spec_is_valid (SnakeCase.as_str ⟨strBytes "aB"⟩) = false :=
  ⟨rfl, rfl, rfl, by decide⟩

/-- C3: for any byte string of length ≥ 2 whose first byte is a valid start
and whose bytes at indices `1 .. len-2` are snake_case characters,
`is_snake_case` returns `true` with no constraint on the final byte: the scan
loop exits before inspecting index `len - 1`. -/
theorem is_snake_case_ignores_last_byte (bytes : List Nat)
    (hlen : 2 ≤ bytes.length)
    (hstart : valid_start (bytes.getD 0 0) = true)
    (hmid : ∀ j, j < bytes.length - 1 → 1 ≤ j →
      is_snake_case_character (bytes.getD j 0) = true) :
    is_snake_case bytes = true := by
  rw [is_snake_case_eq_true_iff]
  refine ⟨?_, hstart, fun j h1 h2 => hmid j h2 h1⟩
  intro hnil
  rw [hnil] at hlen
  exact absurd hlen (by simp)

/-- Witness for C3: `"aB"` (uppercase final byte) is accepted, and indeed
`"ab"` and `"aB"` give the same result. -/
theorem is_snake_case_ignores_last_byte_witness :
    is_snake_case (strBytes "aB") = true ∧
    is_snake_case (strBytes "ab") = is_snake_case (strBytes "aB") :=
  ⟨is_snake_case_ignores_last_byte (strBytes "aB") (by decide) (by decide) (by decide),
    by decide⟩

/-- C4: exact results on the fixed boundary inputs: `""` and `"42abc"` and
`"Hello"` and `"hello world"` are rejected, `"_"` and `"_hello42"` accepted. -/
theorem is_snake_case_boundary_inputs :
    is_snake_case (strBytes "") = false ∧
    is_snake_case (strBytes "42abc") = false ∧
    is_snake_case (strBytes "_") = true ∧
    is_snake_case (strBytes "_hello42") = true ∧
    is_snake_case (strBytes "Hello") = false ∧
    is_snake_case (strBytes "hello world") = false := by
  decide

/-- C5: each fallible constructor returns the single error `InvalidSnakeCase`
exactly when `is_snake_case` is `false`, and otherwise returns `Ok` wrapping
the input text. (The accessors are plain total projections in the embedding,
mirroring the infallible Rust accessors.) -/
theorem constructors_error_iff_invalid (s : List Nat) :
    (SnakeCase.try_from_str s = .error .mk ↔ is_snake_case s = false) ∧
    (SnakeCase.try_from_string s = .error .mk ↔ is_snake_case s = false) ∧
    (SnakeCaseRef.try_from_str s = .error .mk ↔ is_snake_case s = false) ∧
    (is_snake_case s = true →
      SnakeCase.try_from_str s = .ok ⟨s⟩ ∧
      SnakeCase.try_from_string s = .ok ⟨s⟩ ∧
      SnakeCaseRef.try_from_str s = .ok ⟨s⟩) := by
  by_cases h : is_snake_case s = true
  · simp [SnakeCase.try_from_str, SnakeCase.try_from_string, SnakeCaseRef.try_from_str, h]
  · have h' : is_snake_case s = false := by
      cases hh : is_snake_case s
      · rfl
      · exact absurd hh h
    simp [SnakeCase.try_from_str, SnakeCase.try_from_string, SnakeCaseRef.try_from_str, h']

/-- Witness for C5 at `"Hello"` (rejected) and `"_hello42"` (accepted). -/
theorem constructors_error_iff_invalid_witness :
    SnakeCase.try_from_str (strBytes "Hello") = .error .mk ∧
    SnakeCase.try_from_str (strBytes "_hello42") = .ok ⟨strBytes "_hello42"⟩ :=
  ⟨(constructors_error_iff_invalid (strBytes "Hello")).1.2 (by decide),
    ((constructors_error_iff_invalid (strBytes "_hello42")).2.2.2 (by decide)).1⟩

/-- C6: for every successfully constructed owning value `v`,
`to_owned(as_ref(v))` equals `v` by content, and `as_ref(v).as_str()` is the
original construction input. -/
theorem as_ref_round_trip (s : List Nat) (v : SnakeCase)
    (h : SnakeCase.try_from_str s = .ok v) :
    SnakeCaseRef.to_owned (SnakeCase.as_ref v) = v ∧
    SnakeCaseRef.as_str (SnakeCase.as_ref v) = s := by
  have hv : v.val = s := by
    by_cases hs : is_snake_case s = true
    · rw [SnakeCase.try_from_str, if_pos hs] at h
      cases h
      rfl
    · rw [SnakeCase.try_from_str, if_neg hs] at h
      simp at h
  exact ⟨rfl, hv⟩

/-- Witness for C6 at `"_hello42"`. -/
theorem as_ref_round_trip_witness :
    SnakeCaseRef.to_owned (SnakeCase.as_ref ⟨strBytes "_hello42"⟩) = ⟨strBytes "_hello42"⟩ ∧
    SnakeCaseRef.as_str (SnakeCase.as_ref ⟨strBytes "_hello42"⟩) = strBytes "_hello42" :=
  as_ref_round_trip (strBytes "_hello42") ⟨strBytes "_hello42"⟩ rfl

/-- C7: for every string the validator accepts, constructing (either variant)
and then taking the textual form reproduces the input byte for byte. -/
theorem construction_preserves_text (s : List Nat) (h : is_snake_case s = true) :
    (SnakeCase.try_from_str s).map SnakeCase.as_str = .ok s ∧
    (SnakeCaseRef.try_from_str s).map SnakeCaseRef.as_str = .ok s := by
  simp [SnakeCase.try_from_str, SnakeCaseRef.try_from_str, h,
    SnakeCase.as_str, SnakeCaseRef.as_str, Except.map]

/-- Witness for C7 at `"_hello42"`. -/
theorem construction_preserves_text_witness :
    (SnakeCase.try_from_str (strBytes "_hello42")).map SnakeCase.as_str =
      .ok (strBytes "_hello42") ∧
    (SnakeCaseRef.try_from_str (strBytes "_hello42")).map SnakeCaseRef.as_str =
      .ok (strBytes "_hello42") :=
  construction_preserves_text (strBytes "_hello42") (by decide)

/-- C8: for every grammar-valid text `t`, both constructors succeed; the owning
and borrowing values compare equal to each other (the owning value viewed
through `as_ref`, the comparison the public surface provides), compare equal to
the raw text in both argument orders, and hash identically (the derived hashes
both delegate to the content's hash). -/
theorem cross_variant_eq_and_hash (t : List Nat) (h : spec_is_valid t = true) :
    ∃ v r, SnakeCase.try_from_str t = .ok v ∧ SnakeCaseRef.try_from_str t = .ok r ∧
      SnakeCaseRef.eq (SnakeCase.as_ref v) r = true ∧
      SnakeCase.eq_str v t = true ∧ str_eq_snake_case t v = true ∧
      SnakeCaseRef.eq_str r t = true ∧ str_eq_snake_case_ref t r = true ∧
      ∀ hash : List Nat → Nat,
        SnakeCase.hash hash v = SnakeCaseRef.hash hash r ∧
        SnakeCase.hash hash v = hash t := by
  have hs := is_snake_case_of_spec_is_valid t h
  refine ⟨⟨t⟩, ⟨t⟩, ?_, ?_, ?_, ?_, ?_, ?_, ?_, fun hash => ⟨rfl, rfl⟩⟩
  · rw [SnakeCase.try_from_str, if_pos hs]
  · rw [SnakeCaseRef.try_from_str, if_pos hs]
  · simp [SnakeCaseRef.eq, SnakeCase.as_ref]
  · simp [SnakeCase.eq_str, SnakeCase.as_str]
  · simp [str_eq_snake_case, SnakeCase.as_str]
  · simp [SnakeCaseRef.eq_str, SnakeCaseRef.as_str]
  · simp [str_eq_snake_case_ref]

/-- Witness for C8 at `"_hello42"`. -/
theorem cross_variant_eq_and_hash_witness :
    ∃ v r, SnakeCase.try_from_str (strBytes "_hello42") = .ok v ∧
      SnakeCaseRef.try_from_str (strBytes "_hello42") = .ok r ∧
      SnakeCaseRef.eq (SnakeCase.as_ref v) r = true ∧
      SnakeCase.eq_str v (strBytes "_hello42") = true ∧
      str_eq_snake_case (strBytes "_hello42") v = true ∧
      SnakeCaseRef.eq_str r (strBytes "_hello42") = true ∧
      str_eq_snake_case_ref (strBytes "_hello42") r = true ∧
      ∀ hash : List Nat → Nat,
        SnakeCase.hash hash v = SnakeCaseRef.hash hash r ∧
        SnakeCase.hash hash v = hash (strBytes "_hello42") :=
  cross_variant_eq_and_hash (strBytes "_hello42") (by decide)

/-- C9: deserialization re-runs the validator on the decoded string, succeeds
wrapping exactly that string when the validator accepts, and otherwise fails
with the message `Expected snake_case, got '<original text>'`; in particular
`"Python"` fails with a message containing `Python` between the quote bytes. -/
theorem deserialize_validates (s : List Nat) :
    (is_snake_case s = true → SnakeCase.deserialize s = .ok ⟨s⟩) ∧
    (is_snake_case s = false →
      SnakeCase.deserialize s =
        .error (strBytes "Expected snake_case, got '" ++ s ++ strBytes "'")) ∧
    SnakeCase.deserialize (strBytes "Python") =
      .error (strBytes "Expected snake_case, got '" ++ strBytes "Python" ++ strBytes "'") := by
  refine ⟨fun h => ?_, fun h => ?_, ?_⟩
  · simp [SnakeCase.deserialize, SnakeCase.try_from_str, h]
  · simp [SnakeCase.deserialize, SnakeCase.try_from_str, h]
  · rfl

/-- Witness for C9 at `"snake"` (accepted) and `"Python"` (rejected). -/
theorem deserialize_validates_witness :
    SnakeCase.deserialize (strBytes "snake") = .ok ⟨strBytes "snake"⟩ ∧
    SnakeCase.deserialize (strBytes "Python") =
      .error (strBytes "Expected snake_case, got '" ++ strBytes "Python" ++ strBytes "'") :=
  ⟨(deserialize_validates (strBytes "snake")).1 (by decide),
    (deserialize_validates (strBytes "Python")).2.2⟩

/-- C10: `is_snake_case` is total and safe on every string: the instrumented
run (every index access checked, the `usize` subtraction guarded) returns
`some` of the unchecked result — no out-of-bounds access, no panic — and any
string containing a non-ASCII character is simply rejected. -/
theorem is_snake_case_total_and_safe (s : String) :
    is_snake_case_checked (strBytes s) = some (is_snake_case (strBytes s)) ∧
    (∀ c, c ∈ s.data → 128 ≤ c.toNat → is_snake_case (strBytes s) = false) :=
  ⟨is_snake_case_checked_eq (strBytes s),
    fun c hc hbig => is_snake_case_eq_false_of_nonascii s c hc hbig⟩

/-- Witness for C10 at `"é"`, a non-ASCII string. -/
theorem is_snake_case_total_and_safe_witness :
    is_snake_case_checked (strBytes "é") = some (is_snake_case (strBytes "é")) ∧
    is_snake_case (strBytes "é") = false :=
  ⟨(is_snake_case_total_and_safe "é").1,
    (is_snake_case_total_and_safe "é").2 'é' (by decide) (by decide)⟩
